import Mathlib

/-!
Shallow embedding of the verification request cache/proxy of the
Mapchap repository: the `POST /api/fns/verify-inn` Express handler,
its input validation, the LRU/TTL response cache in front of the
DaData registry lookup, and the normalization of provider responses.
-/

/-- A JavaScript value that may appear in the parsed JSON request body
under the `inn` field.  `vundef` stands for `undefined` (field absent). -/
inductive JsVal where
  | vstr (s : String)
  | vnum (n : Int)
  | vbool (b : Bool)
  | vnull
  | vundef
deriving DecidableEq

/-- JavaScript truthiness of a `JsVal` (the `!inn` guard). -/
def jsTruthy : JsVal → Bool
  | .vstr s => !decide (s = "")
  | .vnum n => !decide (n = 0)
  | .vbool b => b
  | .vnull => false
  | .vundef => false

/-- JavaScript `String(v)` coercion, as applied by `RegExp.test` to a
non-string argument (integers render in decimal). -/
def jsToString : JsVal → String
  | .vstr s => s
  | .vnum n => toString n
  | .vbool b => if b then "true" else "false"
  | .vnull => "null"
  | .vundef => "undefined"

/-- The test `/^\d{10}$|^\d{12}$/.test(s)`: the whole string is exactly
10 or exactly 12 ASCII digits.  No trimming is performed. -/
def innRegexTest (s : String) : Bool :=
  (decide (s.length = 10) || decide (s.length = 12)) && s.data.all (fun ch => ch.isDigit)

/-- The `company` record of a normalized verification result
(lines 78-84 of the handler). -/
structure Company where
  name : Option String
  ogrn : Option String
  address : String
  okved : Option String
  state : String
deriving DecidableEq

/-- The canonical outcome shape built by the handler:
`status` is one of success / warning / error, `message` is always
present, `company` only when a match was found. -/
structure VerificationResult where
  status : String
  message : String
  company : Option Company
deriving DecidableEq

/-- One cache slot: key, stored value, and the time `set` stamped it. -/
structure CacheEntry where
  key : JsVal
  value : VerificationResult
  insertedAt : Nat
deriving DecidableEq

/-- Modelled from the spec: the `lru-cache` package used at line 18 of
the server is not part of the repository, so its behaviour is taken
from the spec (section 4.2): a bounded map with least-recently-used
eviction, recency updated on `get` hits and on `set`, and lazy TTL
expiry (an entry is stale once `now - insertedAt` exceeds `ttl`).
`entries` is kept in recency order, most recently used first. -/
structure Cache where
  entries : List CacheEntry
  maxSize : Nat
  ttl : Nat
deriving DecidableEq

/-- Whether an entry is expired at time `now` (times in milliseconds). -/
def staleAt (ttl now : Nat) (e : CacheEntry) : Bool :=
  decide (ttl < now - e.insertedAt)

/-- Modelled from the spec: `cache.has(k)` — true when the key is
present and its entry is not expired; does not change the cache. -/
def Cache.has (c : Cache) (k : JsVal) (now : Nat) : Bool :=
  match c.entries.find? (fun e => decide (e.key = k)) with
  | some e => !staleAt c.ttl now e
  | none => false

/-- Modelled from the spec: `cache.get(k)` — on a fresh hit, returns the
value and moves the entry to most-recently-used position; a stale entry
is treated as a miss and dropped; otherwise the cache is unchanged. -/
def Cache.get (c : Cache) (k : JsVal) (now : Nat) :
    Option VerificationResult × Cache :=
  match c.entries.find? (fun e => decide (e.key = k)) with
  | some e =>
      if staleAt c.ttl now e then
        (none, { c with entries := c.entries.filter (fun e2 => !decide (e2.key = k)) })
      else
        (some e.value,
         { c with entries := e :: c.entries.filter (fun e2 => !decide (e2.key = k)) })
  | none => (none, c)

/-- Eviction step of `set`: drop the least-recently-used entry (the last
one in recency order) when the size exceeds the capacity. -/
def evictIfOver (maxSize : Nat) (l : List CacheEntry) : List CacheEntry :=
  if maxSize < l.length then l.dropLast else l

/-- Modelled from the spec: `cache.set(k, v)` — inserts or overwrites at
most-recently-used position with `insertedAt = now`; when the size would
exceed `maxSize`, the least-recently-used entry is evicted. -/
def Cache.set (c : Cache) (k : JsVal) (v : VerificationResult) (now : Nat) : Cache :=
  { c with entries := evictIfOver c.maxSize (⟨k, v, now⟩ :: c.entries.filter (fun e => !decide (e.key = k))) }

/-- The cache constructed at lines 18-21 of the server:
`max: 100`, `ttl: 1000 * 60 * 60` (one hour, in milliseconds). -/
def cache : Cache :=
  { entries := [], maxSize := 100, ttl := 1000 * 60 * 60 }

/-- The value stored for a key, ignoring recency and expiry. -/
def lookupVal (es : List CacheEntry) (k : JsVal) : Option VerificationResult :=
  (es.find? (fun e => decide (e.key = k))).map (fun e => e.value)

/-- The `name` object of a DaData suggestion (`companyData.name`). -/
structure NameRec where
  full_with_opf : Option String
  short_with_opf : Option String
  full : Option String
  short : Option String
deriving DecidableEq

/-- One element of `companyData.okveds` (only its `name` is read). -/
structure OkvedRec where
  name : Option String
deriving DecidableEq

/-- The `data` object of one DaData suggestion, with the fields the
handler reads.  `address` abbreviates `address.value` and `state`
abbreviates `state.status`; a well-formed candidate has both. -/
structure CompanyData where
  name : NameRec
  ogrn : Option String
  ogrnip : Option String
  address : String
  okved : Option String
  okveds : Option (List OkvedRec)
  state : String
deriving DecidableEq

/-- Outcome of the `fetch` to the DaData endpoint, as the handler
distinguishes it: a thrown error (network failure or a body that cannot
be parsed / processed, caught at line 103), a non-2xx response
(line 65), or a parsed body whose `suggestions` field may be absent. -/
inductive FetchOutcome where
  | netError (msg : String)
  | httpError (status : Nat) (errorText : String)
  | success (suggestions : Option (List CompanyData))
deriving DecidableEq

/-- JavaScript `a || b` on optional strings: the left operand wins
exactly when it is present and non-empty (truthy). -/
def jsOr : Option String → Option String → Option String
  | none, b => b
  | some s, b => if s = "" then b else some s

/-- The fallback `companyData.okveds && companyData.okveds[0] &&
companyData.okveds[0].name` at line 82. -/
def okvedsFallback (okveds : Option (List OkvedRec)) : Option String :=
  match okveds with
  | none => none
  | some l =>
    match l.head? with
    | none => none
    | some o => o.name

/-- The company record built at lines 78-84: the `||` fallback chains
for `name`, `ogrn` and `okved`, and `state.status.toLowerCase()`. -/
def normalizeCompany (d : CompanyData) : Company :=
  { name := jsOr d.name.full_with_opf
      (jsOr d.name.short_with_opf (jsOr d.name.full d.name.short))
    ogrn := jsOr d.ogrn d.ogrnip
    address := d.address
    okved := jsOr d.okved (okvedsFallback d.okveds)
    state := d.state.toLower }

/-- The guard `data.suggestions && data.suggestions.length > 0`,
returning `suggestions[0].data` when it passes. -/
def firstSuggestion : Option (List CompanyData) → Option CompanyData
  | none => none
  | some l => if 0 < l.length then l.head? else none

/-- The result built at lines 75-91 for a found candidate: initially
`success`, downgraded to `warning` with a rewritten message when the
normalized state is not `active`. -/
def foundResult (comp : Company) : VerificationResult :=
  let r0 : VerificationResult :=
    { status := "success", message := "Организация найдена.", company := some comp }
  if comp.state ≠ "active" then
    { r0 with status := "warning",
              message := "Организация найдена, но не является действующей." }
  else r0

/-- The negative result built at lines 96-99. -/
def notFoundResult : VerificationResult :=
  { status := "error", message := "Организация с таким ИНН не найдена.",
    company := none }

/-- The normalized result the handler derives from a parsed provider
body: first candidate normalized, or the negative result. -/
def normalizeResponse (sugs : Option (List CompanyData)) : VerificationResult :=
  match firstSuggestion sugs with
  | some d => foundResult (normalizeCompany d)
  | none => notFoundResult

/-- A response body sent by the handler. -/
inductive RespBody where
  | empty
  | msg (message : String)
  | msgDetails (message : String) (details : String)
  | result (r : VerificationResult)
deriving DecidableEq

/-- An HTTP response: status code and JSON body (`res.json` without an
explicit status sends 200). -/
structure HttpResponse where
  status : Nat
  body : RespBody
deriving DecidableEq

/-- What one handled request produces: the HTTP response, the cache
state afterwards, and how many upstream `fetch` calls were made. -/
structure HandlerOutcome where
  resp : HttpResponse
  cache : Cache
  upstreamCalls : Nat
deriving DecidableEq

/-- Lines 47-106 of the handler, after the input guards: cache check,
upstream fetch on a miss, normalization and caching of the outcome. -/
def verifyInnCore (v : JsVal) (c : Cache) (now : Nat) (p : FetchOutcome) :
    HandlerOutcome :=
  if c.has v now then
    match c.get v now with
    | (some r, c2) => ⟨⟨200, .result r⟩, c2, 0⟩
    | (none, c2) => ⟨⟨200, .empty⟩, c2, 0⟩
  else
    match p with
    | .netError m =>
        ⟨⟨500, .msgDetails "Внутренняя ошибка сервера." m⟩, c, 1⟩
    | .httpError st txt =>
        ⟨⟨st, .msgDetails "Ошибка при проверке ИНН через ФНС. Попробуйте позже." txt⟩,
         c, 1⟩
    | .success sugs =>
        match firstSuggestion sugs with
        | some d =>
            let r := foundResult (normalizeCompany d)
            ⟨⟨200, .result r⟩, c.set v r now, 1⟩
        | none =>
            ⟨⟨404, .result notFoundResult⟩, c.set v notFoundResult now, 1⟩

/-- The full `POST /api/fns/verify-inn` handler (lines 35-107): the
`!inn` guard, the format test, then the core path. -/
def verifyInnHandler (inn : JsVal) (c : Cache) (now : Nat) (p : FetchOutcome) :
    HandlerOutcome :=
  if jsTruthy inn = false then
    ⟨⟨400, .msg "ИНН не предоставлен."⟩, c, 0⟩
  else if innRegexTest (jsToString inn) = false then
    ⟨⟨400, .msg "Некорректный формат ИНН."⟩, c, 0⟩
  else verifyInnCore inn c now p

/-! ### Cache lemmas -/

theorem find?_filter_ne (es : List CacheEntry) {k k2 : JsVal} (h : k2 ≠ k) :
    (es.filter (fun e => !decide (e.key = k))).find? (fun e => decide (e.key = k2)) =
      es.find? (fun e => decide (e.key = k2)) := by
  induction es with
  | nil => rfl
  | cons e rest ih =>
    by_cases he : e.key = k
    · have hne : ¬e.key = k2 := fun hh => h (hh ▸ he)
      rw [List.filter_cons, if_neg (by simp [he]),
        List.find?_cons_of_neg _ (by simpa using hne), ih]
    · by_cases he2 : e.key = k2
      · rw [List.filter_cons, if_pos (by simpa using he),
          List.find?_cons_of_pos _ (by simpa using he2),
          List.find?_cons_of_pos _ (by simpa using he2)]
      · rw [List.filter_cons, if_pos (by simpa using he),
          List.find?_cons_of_neg _ (by simpa using he2),
          List.find?_cons_of_neg _ (by simpa using he2), ih]

theorem lookupVal_filter_ne (es : List CacheEntry) {k k2 : JsVal} (h : k2 ≠ k) :
    lookupVal (es.filter (fun e => !decide (e.key = k))) k2 = lookupVal es k2 := by
  unfold lookupVal
  rw [find?_filter_ne es h]

theorem lookupVal_cons_ne (e : CacheEntry) (es : List CacheEntry) {k2 : JsVal}
    (h : ¬e.key = k2) : lookupVal (e :: es) k2 = lookupVal es k2 := by
  unfold lookupVal
  rw [List.find?_cons_of_neg _ (by simpa using h)]

theorem lookupVal_dropLast {es : List CacheEntry} {k2 : JsVal}
    {v2 : VerificationResult} (h : lookupVal es.dropLast k2 = some v2) :
    lookupVal es k2 = some v2 := by
  obtain ⟨t, ht⟩ := List.dropLast_prefix es
  unfold lookupVal at h ⊢
  rcases hf : es.dropLast.find? (fun e => decide (e.key = k2)) with _ | e2
  · rw [hf] at h
    simp at h
  · rw [hf] at h
    rw [← ht, List.find?_append, hf]
    simpa using h

theorem lookupVal_evictIfOver {m : Nat} {l : List CacheEntry} {k2 : JsVal}
    {v2 : VerificationResult} (h : lookupVal (evictIfOver m l) k2 = some v2) :
    lookupVal l k2 = some v2 := by
  unfold evictIfOver at h
  by_cases hlen : m < l.length
  · rw [if_pos hlen] at h
    exact lookupVal_dropLast h
  · rw [if_neg hlen] at h
    exact h

theorem lookupVal_set_frame {c : Cache} {k k2 : JsVal} {v v2 : VerificationResult}
    {now : Nat} (hne : k2 ≠ k)
    (h : lookupVal (c.set k v now).entries k2 = some v2) :
    lookupVal c.entries k2 = some v2 := by
  have h2 := lookupVal_evictIfOver h
  rw [lookupVal_cons_ne _ _ (fun hh => hne hh.symm), lookupVal_filter_ne _ hne] at h2
  exact h2

theorem lookupVal_get_frame (c : Cache) (k : JsVal) (now : Nat)
    {k2 : JsVal} {v2 : VerificationResult} (hne : k2 ≠ k)
    (h : lookupVal ((c.get k now).2).entries k2 = some v2) :
    lookupVal c.entries k2 = some v2 := by
  unfold Cache.get at h
  rcases hf : c.entries.find? (fun e => decide (e.key = k)) with _ | e
  · rw [hf] at h
    exact h
  · have hk : e.key = k := by
      have := List.find?_some hf
      simpa using this
    by_cases hs : staleAt c.ttl now e = true
    · simp only [hf, hs, if_true] at h
      rw [lookupVal_filter_ne _ hne] at h
      exact h
    · have hs2 : staleAt c.ttl now e = false := by
        simpa using hs
      simp only [hf, hs2, Bool.false_eq_true, if_false] at h
      rw [lookupVal_cons_ne _ _ (by rw [hk]; exact fun hh => hne hh.symm),
        lookupVal_filter_ne _ hne] at h
      exact h

theorem find?_evict_cons_self {m : Nat} (hm : 1 ≤ m) (e : CacheEntry)
    (l : List CacheEntry) :
    (evictIfOver m (e :: l)).find? (fun x => decide (x.key = e.key)) = some e := by
  unfold evictIfOver
  rcases l with _ | ⟨a, t⟩
  · rw [if_neg (by simp only [List.length_cons, List.length_nil]; omega)]
    exact List.find?_cons_of_pos _ (by simp)
  · by_cases hlen : m < (e :: a :: t).length
    · rw [if_pos hlen, List.dropLast_cons_of_ne_nil (by simp)]
      exact List.find?_cons_of_pos _ (by simp)
    · rw [if_neg hlen]
      exact List.find?_cons_of_pos _ (by simp)

theorem set_find?_self (c : Cache) (k : JsVal) (v : VerificationResult) (t0 : Nat)
    (hcap : 1 ≤ c.maxSize) :
    (c.set k v t0).entries.find? (fun e => decide (e.key = k)) =
      some ⟨k, v, t0⟩ := by
  exact find?_evict_cons_self hcap ⟨k, v, t0⟩
    (c.entries.filter (fun e => !decide (e.key = k)))

theorem has_set_self {c : Cache} {k : JsVal} {v : VerificationResult} {t0 t1 : Nat}
    (hcap : 1 ≤ c.maxSize) (hfresh : t1 - t0 ≤ c.ttl) :
    (c.set k v t0).has k t1 = true := by
  have httl : (c.set k v t0).ttl = c.ttl := rfl
  unfold Cache.has
  rw [set_find?_self c k v t0 hcap]
  simp [staleAt, httl]
  omega

theorem get_set_self {c : Cache} {k : JsVal} {v : VerificationResult} {t0 t1 : Nat}
    (hcap : 1 ≤ c.maxSize) (hfresh : t1 - t0 ≤ c.ttl) :
    ((c.set k v t0).get k t1).1 = some v := by
  have httl : (c.set k v t0).ttl = c.ttl := rfl
  have hstale : staleAt (c.set k v t0).ttl t1 ⟨k, v, t0⟩ = false := by
    simp [staleAt, httl]
    omega
  unfold Cache.get
  simp only [set_find?_self c k v t0 hcap, hstale, Bool.false_eq_true, if_false]

theorem has_false_mono {c : Cache} {k : JsVal} {t0 t1 : Nat}
    (h : c.has k t0 = false) (hle : t0 ≤ t1) : c.has k t1 = false := by
  unfold Cache.has at h ⊢
  rcases hf : c.entries.find? (fun e => decide (e.key = k)) with _ | e
  · rw [hf]
  · rw [hf] at h ⊢
    simp [staleAt] at h ⊢
    omega

/-! ### Handler path lemmas -/

theorem handler_valid_eq_core {v : JsVal} {c : Cache} {now : Nat} {p : FetchOutcome}
    (hv : jsTruthy v = true) (hfmt : innRegexTest (jsToString v) = true) :
    verifyInnHandler v c now p = verifyInnCore v c now p := by
  unfold verifyInnHandler
  simp [hv, hfmt]

theorem core_miss_success {v : JsVal} {c : Cache} {now : Nat}
    {sugs : Option (List CompanyData)} (hmiss : c.has v now = false) :
    verifyInnCore v c now (.success sugs) =
      ⟨⟨if (firstSuggestion sugs).isSome then 200 else 404,
        .result (normalizeResponse sugs)⟩,
       c.set v (normalizeResponse sugs) now, 1⟩ := by
  unfold verifyInnCore normalizeResponse
  rcases h : firstSuggestion sugs with _ | d <;> simp [hmiss, h]

theorem core_hit {v : JsVal} {c : Cache} {now : Nat} {p : FetchOutcome}
    {r : VerificationResult}
    (hhit : c.has v now = true) (hget : (c.get v now).1 = some r) :
    verifyInnCore v c now p = ⟨⟨200, .result r⟩, (c.get v now).2, 0⟩ := by
  unfold verifyInnCore
  rcases hg : c.get v now with ⟨r2, c2⟩
  rw [hg] at hget
  simp at hget
  subst hget
  simp [hhit, hg]

theorem core_miss_upstream {v : JsVal} {c : Cache} {now : Nat} {p : FetchOutcome}
    (hmiss : c.has v now = false) :
    (verifyInnCore v c now p).upstreamCalls = 1 := by
  unfold verifyInnCore
  rcases p with m | ⟨st, txt⟩ | sugs
  · simp [hmiss]
  · simp [hmiss]
  · rcases h : firstSuggestion sugs with _ | d <;> simp [hmiss, h]

/-- The invariant of the normalized result: success exactly for an
active company; warning with the dedicated message for a found
non-active one; error without company when nothing was found. -/
theorem normalizeResponse_invariant (sugs : Option (List CompanyData)) :
    (((normalizeResponse sugs).status = "success") ↔
      ∃ comp, (normalizeResponse sugs).company = some comp ∧ comp.state = "active") ∧
    (∀ comp, (normalizeResponse sugs).company = some comp → comp.state ≠ "active" →
      (normalizeResponse sugs).status = "warning" ∧
      (normalizeResponse sugs).message = "Организация найдена, но не является действующей.") ∧
    (firstSuggestion sugs = none →
      (normalizeResponse sugs).status = "error" ∧
      (normalizeResponse sugs).company = none) := by
  rcases h : firstSuggestion sugs with _ | d
  · simp only [normalizeResponse, h]
    refine ⟨by simp [notFoundResult], ?_, fun _ => ⟨rfl, rfl⟩⟩
    intro comp hc
    simp [notFoundResult] at hc
  · simp only [normalizeResponse, h, foundResult]
    by_cases hs : (normalizeCompany d).state = "active"
    · rw [if_neg (not_not_intro hs)]
      refine ⟨⟨fun _ => ⟨normalizeCompany d, rfl, hs⟩, fun _ => rfl⟩, ?_, ?_⟩
      · intro comp hc hne
        have hcomp : normalizeCompany d = comp := by
          simpa using hc
        rw [← hcomp] at hne
        exact absurd hs hne
      · intro hnone
        exact absurd hnone (by simp)
    · rw [if_pos hs]
      refine ⟨?_, fun comp hc hne => ⟨rfl, rfl⟩, ?_⟩
      · constructor
        · intro hw
          exact absurd hw (by simp)
        · rintro ⟨comp, hc, hstate⟩
          have hcomp : normalizeCompany d = comp := by
            simpa using hc
          rw [← hcomp] at hstate
          exact absurd hstate hs
      · intro hnone
        exact absurd hnone (by simp)

/-- C1: every result the verify-inn handler produces from a well-formed
provider response has `status = success` iff a company is present with
`state = active`; a found non-active company gives `status = warning`
with the non-active message; no candidate gives `status = error` with no
company. -/
theorem C1_verify_result_invariant (v : JsVal) (c : Cache) (now : Nat)
    (sugs : Option (List CompanyData))
    (hv : jsTruthy v = true) (hfmt : innRegexTest (jsToString v) = true)
    (hmiss : c.has v now = false) :
    ∃ r : VerificationResult,
      (verifyInnHandler v c now (.success sugs)).resp.body = .result r ∧
      ((r.status = "success") ↔ ∃ comp, r.company = some comp ∧ comp.state = "active") ∧
      (∀ comp, r.company = some comp → comp.state ≠ "active" →
        r.status = "warning" ∧
        r.message = "Организация найдена, но не является действующей.") ∧
      (firstSuggestion sugs = none → r.status = "error" ∧ r.company = none) := by
  rw [handler_valid_eq_core hv hfmt, core_miss_success hmiss]
  obtain ⟨h1, h2, h3⟩ := normalizeResponse_invariant sugs
  exact ⟨normalizeResponse sugs, rfl, h1, h2, h3⟩

/-- A valid 10-digit identifier used as concrete input. -/
def innA : JsVal := .vstr "7707083893"

/-- A concrete active-state provider candidate. -/
def sampleCompany : CompanyData :=
  { name := { full_with_opf := some "ООО Ромашка", short_with_opf := none,
              full := none, short := none }
    ogrn := some "1027700132195"
    ogrnip := none
    address := "г Москва"
    okved := some "47.11"
    okveds := none
    state := "ACTIVE" }

/-- Witness for C1: the handler run on an empty cache with one active
candidate satisfies the invariant. -/
theorem C1_verify_result_invariant_witness :
    jsTruthy innA = true ∧ innRegexTest (jsToString innA) = true ∧
    Cache.has cache innA 0 = false ∧
    (∃ r : VerificationResult,
      (verifyInnHandler innA cache 0 (.success (some [sampleCompany]))).resp.body =
        .result r ∧
      ((r.status = "success") ↔ ∃ comp, r.company = some comp ∧ comp.state = "active") ∧
      (∀ comp, r.company = some comp → comp.state ≠ "active" →
        r.status = "warning" ∧
        r.message = "Организация найдена, но не является действующей.") ∧
      (firstSuggestion (some [sampleCompany]) = none →
        r.status = "error" ∧ r.company = none)) :=
  ⟨by decide, by decide, by decide,
   C1_verify_result_invariant innA cache 0 (some [sampleCompany])
     (by decide) (by decide) (by decide)⟩

/-- C2: a first verify call that gets a provider response (found or not)
makes one upstream call and populates the cache; a second call for the
same identifier within the TTL window is a cache hit: zero upstream
calls, the cached result returned, one upstream call in total. -/
theorem C2_second_call_is_cache_hit (v : JsVal) (c : Cache) (t0 t1 : Nat)
    (sugs : Option (List CompanyData)) (p1 : FetchOutcome)
    (hv : jsTruthy v = true) (hfmt : innRegexTest (jsToString v) = true)
    (hcap : 1 ≤ c.maxSize) (hmiss : c.has v t0 = false)
    (hfresh : t1 - t0 ≤ c.ttl) :
    (verifyInnHandler v c t0 (.success sugs)).upstreamCalls = 1 ∧
    (verifyInnHandler v (verifyInnHandler v c t0 (.success sugs)).cache t1 p1).upstreamCalls = 0 ∧
    (verifyInnHandler v (verifyInnHandler v c t0 (.success sugs)).cache t1 p1).resp.body =
      .result (normalizeResponse sugs) ∧
    (verifyInnHandler v c t0 (.success sugs)).upstreamCalls +
      (verifyInnHandler v (verifyInnHandler v c t0 (.success sugs)).cache t1 p1).upstreamCalls
      = 1 := by
  have h1 : verifyInnHandler v c t0 (.success sugs) =
      ⟨⟨if (firstSuggestion sugs).isSome then 200 else 404,
        .result (normalizeResponse sugs)⟩,
       c.set v (normalizeResponse sugs) t0, 1⟩ := by
    rw [handler_valid_eq_core hv hfmt, core_miss_success hmiss]
  have h2 : verifyInnHandler v (verifyInnHandler v c t0 (.success sugs)).cache t1 p1 =
      ⟨⟨200, .result (normalizeResponse sugs)⟩,
       ((c.set v (normalizeResponse sugs) t0).get v t1).2, 0⟩ := by
    rw [h1, handler_valid_eq_core hv hfmt]
    exact core_hit (has_set_self hcap hfresh) (get_set_self hcap hfresh)
  rw [h2, h1]
  exact ⟨rfl, rfl, rfl, rfl⟩

/-- Witness for C2: two calls for the same valid identifier, the second
one minute later, make exactly one upstream call. -/
theorem C2_second_call_is_cache_hit_witness :
    jsTruthy innA = true ∧ innRegexTest (jsToString innA) = true ∧
    1 ≤ cache.maxSize ∧ Cache.has cache innA 0 = false ∧
    60000 - 0 ≤ cache.ttl ∧
    ((verifyInnHandler innA cache 0 (.success (some [sampleCompany]))).upstreamCalls = 1 ∧
     (verifyInnHandler innA
       (verifyInnHandler innA cache 0 (.success (some [sampleCompany]))).cache 60000
       (.success (some [sampleCompany]))).upstreamCalls = 0 ∧
     (verifyInnHandler innA
       (verifyInnHandler innA cache 0 (.success (some [sampleCompany]))).cache 60000
       (.success (some [sampleCompany]))).resp.body =
       .result (normalizeResponse (some [sampleCompany])) ∧
     (verifyInnHandler innA cache 0 (.success (some [sampleCompany]))).upstreamCalls +
       (verifyInnHandler innA
         (verifyInnHandler innA cache 0 (.success (some [sampleCompany]))).cache 60000
         (.success (some [sampleCompany]))).upstreamCalls = 1) :=
  ⟨by decide, by decide, by decide, by decide, by decide,
   C2_second_call_is_cache_hit innA cache 0 60000 (some [sampleCompany])
     (.success (some [sampleCompany]))
     (by decide) (by decide) (by decide) (by decide) (by decide)⟩

/-- C6: after any verify call that obtains a parsed provider response,
the normalized result — success, warning or error alike — is stored in
the cache under the identifier. -/
theorem C6_every_outcome_cached (v : JsVal) (c : Cache) (now : Nat)
    (sugs : Option (List CompanyData))
    (hv : jsTruthy v = true) (hfmt : innRegexTest (jsToString v) = true)
    (hcap : 1 ≤ c.maxSize) (hmiss : c.has v now = false) :
    (verifyInnHandler v c now (.success sugs)).cache =
      c.set v (normalizeResponse sugs) now ∧
    lookupVal (verifyInnHandler v c now (.success sugs)).cache.entries v =
      some (normalizeResponse sugs) ∧
    (verifyInnHandler v c now (.success sugs)).resp.body =
      .result (normalizeResponse sugs) := by
  have h1 : verifyInnHandler v c now (.success sugs) =
      ⟨⟨if (firstSuggestion sugs).isSome then 200 else 404,
        .result (normalizeResponse sugs)⟩,
       c.set v (normalizeResponse sugs) now, 1⟩ := by
    rw [handler_valid_eq_core hv hfmt, core_miss_success hmiss]
  rw [h1]
  refine ⟨rfl, ?_, rfl⟩
  show lookupVal (c.set v (normalizeResponse sugs) now).entries v =
    some (normalizeResponse sugs)
  unfold lookupVal
  rw [set_find?_self c v (normalizeResponse sugs) now hcap]
  rfl

/-- Witness for C6: a not-found (status error) outcome is cached like a
positive one. -/
theorem C6_every_outcome_cached_witness :
    jsTruthy innA = true ∧ innRegexTest (jsToString innA) = true ∧
    1 ≤ cache.maxSize ∧ Cache.has cache innA 0 = false ∧
    ((verifyInnHandler innA cache 0 (.success (some []))).cache =
       cache.set innA (normalizeResponse (some [])) 0 ∧
     lookupVal (verifyInnHandler innA cache 0 (.success (some []))).cache.entries innA =
       some (normalizeResponse (some [])) ∧
     (verifyInnHandler innA cache 0 (.success (some []))).resp.body =
       .result (normalizeResponse (some []))) :=
  ⟨by decide, by decide, by decide, by decide,
   C6_every_outcome_cached innA cache 0 (some [])
     (by decide) (by decide) (by decide) (by decide)⟩

/-- A simple stored value for cache experiments. -/
def probeResult : VerificationResult :=
  { status := "success", message := "ok", company := none }

/-- A full capacity-2 cache holding keys A (more recent) and B. -/
def probeCache2 : Cache :=
  { entries := [⟨.vstr "A", probeResult, 0⟩, ⟨.vstr "B", probeResult, 0⟩],
    maxSize := 2, ttl := 1000 }

/-- C7: the verification cache is constructed with capacity 100 and a
one-hour TTL; `set` never grows it beyond capacity; inserting a distinct
key into a full cache evicts exactly the least-recently-used entry; an
entry older than the TTL is treated as absent by `has` and `get`; a
`get` hit moves its entry to most-recently-used position; and in the
capacity-2 scenario insert A, insert B, touch A, insert C, the key B is
evicted while A survives. -/
theorem C7_cache_capacity_lru_ttl :
    cache.maxSize = 100 ∧ cache.ttl = 1000 * 60 * 60 ∧
    (∀ (c : Cache) (k : JsVal) (v : VerificationResult) (now : Nat),
      c.entries.length ≤ c.maxSize →
      (c.set k v now).entries.length ≤ c.maxSize) ∧
    (∀ (c : Cache) (k : JsVal) (v : VerificationResult) (now : Nat),
      1 ≤ c.maxSize → c.entries.length = c.maxSize →
      (∀ e ∈ c.entries, e.key ≠ k) →
      (c.set k v now).entries = ⟨k, v, now⟩ :: c.entries.dropLast) ∧
    (∀ (c : Cache) (k : JsVal) (now : Nat),
      (∀ e ∈ c.entries, e.key = k → c.ttl < now - e.insertedAt) →
      c.has k now = false ∧ (c.get k now).1 = none) ∧
    (∀ (c : Cache) (k : JsVal) (now : Nat) (r : VerificationResult),
      (c.get k now).1 = some r →
      ∃ ins, ((c.get k now).2).entries.head? = some ⟨k, r, ins⟩) ∧
    ((((((Cache.mk [] 2 1000).set (.vstr "A") probeResult 0).set
          (.vstr "B") probeResult 1).get (.vstr "A") 2).2).set
          (.vstr "C") probeResult 3).entries.map (fun e => e.key) =
      [.vstr "C", .vstr "A"] := by
  refine ⟨rfl, rfl, ?_, ?_, ?_, ?_, by decide⟩
  · intro c k v now hlen
    show (evictIfOver c.maxSize
      (⟨k, v, now⟩ :: c.entries.filter (fun e => !decide (e.key = k)))).length ≤
      c.maxSize
    have hfl : (c.entries.filter (fun e => !decide (e.key = k))).length ≤
        c.entries.length := List.length_filter_le _ _
    unfold evictIfOver
    by_cases hc : c.maxSize <
        ((⟨k, v, now⟩ : CacheEntry) ::
          c.entries.filter (fun e => !decide (e.key = k))).length
    · rw [if_pos hc, List.length_dropLast]
      simp only [List.length_cons]
      omega
    · rw [if_neg hc]
      simp only [List.length_cons] at hc ⊢
      omega
  · intro c k v now hcap hlen hkeys
    show evictIfOver c.maxSize
      (⟨k, v, now⟩ :: c.entries.filter (fun e => !decide (e.key = k))) =
      ⟨k, v, now⟩ :: c.entries.dropLast
    have hfl : c.entries.filter (fun e => !decide (e.key = k)) = c.entries := by
      rw [List.filter_eq_self]
      intro e he
      simpa using hkeys e he
    rw [hfl]
    unfold evictIfOver
    rw [if_pos (by simp only [List.length_cons, hlen]; omega)]
    have hne : c.entries ≠ [] := by
      intro hnil
      rw [hnil] at hlen
      simp at hlen
      omega
    rw [List.dropLast_cons_of_ne_nil hne]
  · intro c k now hstale
    constructor
    · unfold Cache.has
      rcases hf : c.entries.find? (fun e => decide (e.key = k)) with _ | e
      · rw [hf]
      · rw [hf]
        have hk : e.key = k := by
          simpa using List.find?_some hf
        have hst := hstale e (List.mem_of_find?_eq_some hf) hk
        simp [staleAt]
        omega
    · unfold Cache.get
      rcases hf : c.entries.find? (fun e => decide (e.key = k)) with _ | e
      · rw [hf]
      · have hk : e.key = k := by
          simpa using List.find?_some hf
        have hst := hstale e (List.mem_of_find?_eq_some hf) hk
        have hs : staleAt c.ttl now e = true := by
          simp [staleAt]
          omega
        simp only [hf, hs, if_true]
  · intro c k now r hget
    unfold Cache.get at hget ⊢
    rcases hf : c.entries.find? (fun e => decide (e.key = k)) with _ | e
    · rw [hf] at hget
      simp at hget
    · have hk : e.key = k := by
        simpa using List.find?_some hf
      by_cases hs : staleAt c.ttl now e = true
      · simp only [hf, hs, if_true] at hget
        simp at hget
      · have hs2 : staleAt c.ttl now e = false := by
          simpa using hs
        simp only [hf, hs2, Bool.false_eq_true, if_false] at hget ⊢
        simp only [Option.some_inj] at hget
        refine ⟨e.insertedAt, ?_⟩
        rcases e with ⟨ek, ev, et⟩
        simp only at hk hget
        rw [hk, hget]
        rfl

/-- Witness for C7: concrete instances for each quantified conjunct. -/
theorem C7_cache_capacity_lru_ttl_witness :
    probeCache2.entries.length ≤ probeCache2.maxSize ∧
    (probeCache2.set (.vstr "D") probeResult 5).entries.length ≤ probeCache2.maxSize ∧
    (1 ≤ probeCache2.maxSize ∧ probeCache2.entries.length = probeCache2.maxSize ∧
      (∀ e ∈ probeCache2.entries, e.key ≠ JsVal.vstr "D") ∧
      (probeCache2.set (.vstr "D") probeResult 5).entries =
        ⟨.vstr "D", probeResult, 5⟩ :: probeCache2.entries.dropLast) ∧
    ((∀ e ∈ probeCache2.entries, e.key = JsVal.vstr "A" →
        probeCache2.ttl < 5000 - e.insertedAt) ∧
      probeCache2.has (.vstr "A") 5000 = false ∧
      (probeCache2.get (.vstr "A") 5000).1 = none) ∧
    ((probeCache2.get (.vstr "A") 2).1 = some probeResult ∧
      ∃ ins, ((probeCache2.get (.vstr "A") 2).2).entries.head? =
        some ⟨.vstr "A", probeResult, ins⟩) :=
  ⟨by decide,
   C7_cache_capacity_lru_ttl.2.2.1 probeCache2 (.vstr "D") probeResult 5 (by decide),
   ⟨by decide, by decide, by decide,
    C7_cache_capacity_lru_ttl.2.2.2.1 probeCache2 (.vstr "D") probeResult 5
      (by decide) (by decide) (by decide)⟩,
   ⟨by decide,
    C7_cache_capacity_lru_ttl.2.2.2.2.1 probeCache2 (.vstr "A") 5000 (by decide)⟩,
   ⟨by decide,
    C7_cache_capacity_lru_ttl.2.2.2.2.2.1 probeCache2 (.vstr "A") 2 probeResult
      (by decide)⟩⟩

/-- The spec-worded name resolution: the first present non-empty value
in the given order. -/
def firstNonEmpty : List (Option String) → Option String
  | [] => none
  | none :: rest => firstNonEmpty rest
  | some s :: rest => if s = "" then firstNonEmpty rest else some s

/-- The `||` chain over four operands computes exactly the first
present non-empty value, whenever one exists. -/
theorem jsOr_firstNonEmpty (a b c e : Option String)
    (h : (firstNonEmpty [a, b, c, e]).isSome = true) :
    jsOr a (jsOr b (jsOr c e)) = firstNonEmpty [a, b, c, e] := by
  rcases a with _ | s1 <;> rcases b with _ | s2 <;>
    rcases c with _ | s3 <;> rcases e with _ | s4 <;>
    simp only [jsOr, firstNonEmpty] at h ⊢ <;>
    (try split_ifs at h ⊢) <;> simp_all

/-- C8: the normalized company name is the first non-empty field in the
order full-with-legal-form, short-with-legal-form, full, short; the
registration number is the organization `ogrn`, with `ogrnip` as the
fallback when the former is absent. -/
theorem C8_name_and_ogrn_resolution (d : CompanyData)
    (hname : (firstNonEmpty [d.name.full_with_opf, d.name.short_with_opf,
      d.name.full, d.name.short]).isSome = true) :
    (normalizeCompany d).name =
      firstNonEmpty [d.name.full_with_opf, d.name.short_with_opf,
        d.name.full, d.name.short] ∧
    (∀ s, d.ogrn = some s → s ≠ "" → (normalizeCompany d).ogrn = some s) ∧
    (d.ogrn = none → (normalizeCompany d).ogrn = d.ogrnip) := by
  refine ⟨?_, ?_, ?_⟩
  · exact jsOr_firstNonEmpty d.name.full_with_opf d.name.short_with_opf
      d.name.full d.name.short hname
  · intro s hs hne
    show jsOr d.ogrn d.ogrnip = some s
    rw [hs]
    simp [jsOr, hne]
  · intro hs
    show jsOr d.ogrn d.ogrnip = d.ogrnip
    rw [hs]
    rfl

/-- Witness for C8 on the sample active candidate. -/
theorem C8_name_and_ogrn_resolution_witness :
    (firstNonEmpty [sampleCompany.name.full_with_opf,
      sampleCompany.name.short_with_opf, sampleCompany.name.full,
      sampleCompany.name.short]).isSome = true ∧
    ((normalizeCompany sampleCompany).name =
      firstNonEmpty [sampleCompany.name.full_with_opf,
        sampleCompany.name.short_with_opf, sampleCompany.name.full,
        sampleCompany.name.short] ∧
     (∀ s, sampleCompany.ogrn = some s → s ≠ "" →
       (normalizeCompany sampleCompany).ogrn = some s) ∧
     (sampleCompany.ogrn = none →
       (normalizeCompany sampleCompany).ogrn = sampleCompany.ogrnip)) :=
  ⟨by decide, C8_name_and_ogrn_resolution sampleCompany (by decide)⟩

/-- Counterexample to C3: after a not-found outcome is cached, the
repeated request within the TTL window is served from the cache by
`res.json(...)` with HTTP status 200, not 404. -/
theorem C3_counterexample :
    (verifyInnHandler innA cache 0 (.success (some []))).resp.status = 404 ∧
    (verifyInnHandler innA
      (verifyInnHandler innA cache 0 (.success (some []))).cache 1000
      (.success (some []))).resp.status = 200 ∧
    (verifyInnHandler innA
      (verifyInnHandler innA cache 0 (.success (some []))).cache 1000
      (.success (some []))).resp.status ≠ 404 := by
  exact ⟨by decide, by decide, by decide⟩

/-- C3 (amended): a verify-inn request for a valid identifier with zero
candidate matches is answered 404 with the error body; a repeated
request within the TTL window is served from the cache with the same
error body but with HTTP status 200. -/
theorem C3_notfound_404_then_cached_200 (v : JsVal) (c : Cache) (t0 t1 : Nat)
    (sugs : Option (List CompanyData)) (p1 : FetchOutcome)
    (hv : jsTruthy v = true) (hfmt : innRegexTest (jsToString v) = true)
    (hcap : 1 ≤ c.maxSize) (hmiss : c.has v t0 = false)
    (hfresh : t1 - t0 ≤ c.ttl) (hzero : firstSuggestion sugs = none) :
    (verifyInnHandler v c t0 (.success sugs)).resp.status = 404 ∧
    (verifyInnHandler v c t0 (.success sugs)).resp.body = .result notFoundResult ∧
    notFoundResult.status = "error" ∧
    notFoundResult.message = "Организация с таким ИНН не найдена." ∧
    notFoundResult.company = none ∧
    (verifyInnHandler v (verifyInnHandler v c t0 (.success sugs)).cache t1
      p1).resp.status = 200 ∧
    (verifyInnHandler v (verifyInnHandler v c t0 (.success sugs)).cache t1
      p1).resp.body = .result notFoundResult := by
  have hnr : normalizeResponse sugs = notFoundResult := by
    unfold normalizeResponse
    rw [hzero]
  have h1 : verifyInnHandler v c t0 (.success sugs) =
      ⟨⟨404, .result notFoundResult⟩, c.set v notFoundResult t0, 1⟩ := by
    rw [handler_valid_eq_core hv hfmt, core_miss_success hmiss, hnr, hzero]
    rfl
  have h2 : verifyInnHandler v (verifyInnHandler v c t0 (.success sugs)).cache t1 p1 =
      ⟨⟨200, .result notFoundResult⟩,
       ((c.set v notFoundResult t0).get v t1).2, 0⟩ := by
    rw [h1, handler_valid_eq_core hv hfmt]
    exact core_hit (has_set_self hcap hfresh) (get_set_self hcap hfresh)
  rw [h2, h1]
  exact ⟨rfl, rfl, rfl, rfl, rfl, rfl, rfl⟩

/-- Witness for the amended C3 at a concrete not-found run. -/
theorem C3_notfound_404_then_cached_200_witness :
    jsTruthy innA = true ∧ innRegexTest (jsToString innA) = true ∧
    1 ≤ cache.maxSize ∧ Cache.has cache innA 0 = false ∧
    1000 - 0 ≤ cache.ttl ∧ firstSuggestion (some []) = none ∧
    ((verifyInnHandler innA cache 0 (.success (some []))).resp.status = 404 ∧
     (verifyInnHandler innA cache 0 (.success (some []))).resp.body =
       .result notFoundResult ∧
     notFoundResult.status = "error" ∧
     notFoundResult.message = "Организация с таким ИНН не найдена." ∧
     notFoundResult.company = none ∧
     (verifyInnHandler innA (verifyInnHandler innA cache 0
       (.success (some []))).cache 1000 (.success (some []))).resp.status = 200 ∧
     (verifyInnHandler innA (verifyInnHandler innA cache 0
       (.success (some []))).cache 1000 (.success (some []))).resp.body =
       .result notFoundResult) :=
  ⟨by decide, by decide, by decide, by decide, by decide, by decide,
   C3_notfound_404_then_cached_200 innA cache 0 1000 (some [])
     (.success (some []))
     (by decide) (by decide) (by decide) (by decide) (by decide) (by decide)⟩

/-- Spec-worded trimming of surrounding whitespace, used to state what
the claimed validation would accept. -/
def trimWs (s : String) : String :=
  ⟨((s.data.dropWhile (fun ch => ch.isWhitespace)).reverse.dropWhile
    (fun ch => ch.isWhitespace)).reverse⟩

/-- Counterexample to C4: a 10-digit identifier with a leading space
matches the claimed trim-then-test validation, yet the handler rejects
it with 400 and the format message — the code never trims. -/
theorem C4_counterexample :
    trimWs " 7707083893" = "7707083893" ∧
    innRegexTest (trimWs " 7707083893") = true ∧
    (verifyInnHandler (.vstr " 7707083893") cache 0
      (.success (some []))).resp.status = 400 ∧
    (verifyInnHandler (.vstr " 7707083893") cache 0
      (.success (some []))).resp.body = .msg "Некорректный формат ИНН." := by
  exact ⟨by decide, by decide, by decide, by decide⟩

/-- C4 (amended): for a string `inn`, validation accepts exactly when
the raw untrimmed string matches `^\d{10}$|^\d{12}$`; on mismatch the
handler answers 400, the cache is untouched and no upstream call is
made. -/
theorem C4_validation_no_trim (s : String) (c : Cache) (now : Nat)
    (p : FetchOutcome) :
    (innRegexTest s = true →
      verifyInnHandler (.vstr s) c now p = verifyInnCore (.vstr s) c now p) ∧
    (innRegexTest s = false →
      (verifyInnHandler (.vstr s) c now p).resp.status = 400 ∧
      (verifyInnHandler (.vstr s) c now p).cache = c ∧
      (verifyInnHandler (.vstr s) c now p).upstreamCalls = 0) := by
  constructor
  · intro hfmt
    have hne : s ≠ "" := by
      intro hempty
      rw [hempty] at hfmt
      exact absurd hfmt (by decide)
    have hv : jsTruthy (.vstr s) = true := by
      simp [jsTruthy, hne]
    exact handler_valid_eq_core hv hfmt
  · intro hfmt
    unfold verifyInnHandler
    by_cases hv : jsTruthy (.vstr s) = false
    · rw [if_pos hv]
      exact ⟨rfl, rfl, rfl⟩
    · rw [if_neg hv]
      simp only [jsToString]
      rw [if_pos hfmt]
      exact ⟨rfl, rfl, rfl⟩

/-- Witness for the amended C4: one accepted and one rejected string. -/
theorem C4_validation_no_trim_witness :
    (innRegexTest "7707083893" = true ∧
      verifyInnHandler (.vstr "7707083893") cache 0 (.success (some [])) =
        verifyInnCore (.vstr "7707083893") cache 0 (.success (some []))) ∧
    (innRegexTest " 7707083893" = false ∧
      (verifyInnHandler (.vstr " 7707083893") cache 0
        (.success (some []))).resp.status = 400 ∧
      (verifyInnHandler (.vstr " 7707083893") cache 0
        (.success (some []))).cache = cache ∧
      (verifyInnHandler (.vstr " 7707083893") cache 0
        (.success (some []))).upstreamCalls = 0) :=
  ⟨⟨by decide, (C4_validation_no_trim "7707083893" cache 0
      (.success (some []))).1 (by decide)⟩,
   ⟨by decide, (C4_validation_no_trim " 7707083893" cache 0
      (.success (some []))).2 (by decide)⟩⟩

/-- Counterexample to C5: an upstream 403 is passed through as response
status 403, which is not a 5xx-class response. -/
theorem C5_counterexample :
    (verifyInnHandler innA cache 0 (.httpError 403 "Forbidden")).resp.status = 403 ∧
    ¬(500 ≤ (verifyInnHandler innA cache 0
      (.httpError 403 "Forbidden")).resp.status) := by
  exact ⟨by decide, by decide⟩

/-- C5 (amended): on a cache miss whose upstream call fails, nothing is
cached — a later call for the same identifier goes upstream again — and
the failure is surfaced with upstream detail attached: status 500 for a
thrown network/parse error, and the upstream status passed through for a
non-2xx response. -/
theorem C5_transport_failure_not_cached (v : JsVal) (c : Cache) (t0 t1 : Nat)
    (m : String) (st : Nat) (txt : String) (p1 : FetchOutcome)
    (hv : jsTruthy v = true) (hfmt : innRegexTest (jsToString v) = true)
    (hmiss : c.has v t0 = false) (hle : t0 ≤ t1) :
    ((verifyInnHandler v c t0 (.netError m)).cache = c ∧
     (verifyInnHandler v c t0 (.netError m)).resp.status = 500 ∧
     (verifyInnHandler v c t0 (.netError m)).resp.body =
       .msgDetails "Внутренняя ошибка сервера." m ∧
     (verifyInnHandler v (verifyInnHandler v c t0 (.netError m)).cache t1
       p1).upstreamCalls = 1) ∧
    ((verifyInnHandler v c t0 (.httpError st txt)).cache = c ∧
     (verifyInnHandler v c t0 (.httpError st txt)).resp.status = st ∧
     (verifyInnHandler v c t0 (.httpError st txt)).resp.body =
       .msgDetails "Ошибка при проверке ИНН через ФНС. Попробуйте позже." txt ∧
     (verifyInnHandler v (verifyInnHandler v c t0 (.httpError st txt)).cache t1
       p1).upstreamCalls = 1) := by
  have hmiss1 : c.has v t1 = false := has_false_mono hmiss hle
  have hup : (verifyInnHandler v c t1 p1).upstreamCalls = 1 := by
    rw [handler_valid_eq_core hv hfmt]
    exact core_miss_upstream hmiss1
  have hnet : verifyInnHandler v c t0 (.netError m) =
      ⟨⟨500, .msgDetails "Внутренняя ошибка сервера." m⟩, c, 1⟩ := by
    rw [handler_valid_eq_core hv hfmt]
    unfold verifyInnCore
    simp [hmiss]
  have hhttp : verifyInnHandler v c t0 (.httpError st txt) =
      ⟨⟨st, .msgDetails "Ошибка при проверке ИНН через ФНС. Попробуйте позже." txt⟩,
       c, 1⟩ := by
    rw [handler_valid_eq_core hv hfmt]
    unfold verifyInnCore
    simp [hmiss]
  rw [hnet, hhttp]
  exact ⟨⟨rfl, rfl, rfl, hup⟩, ⟨rfl, rfl, rfl, hup⟩⟩

/-- Witness for the amended C5 at concrete failures. -/
theorem C5_transport_failure_not_cached_witness :
    jsTruthy innA = true ∧ innRegexTest (jsToString innA) = true ∧
    Cache.has cache innA 0 = false ∧ (0 : Nat) ≤ 1000 ∧
    (((verifyInnHandler innA cache 0 (.netError "socket hang up")).cache = cache ∧
      (verifyInnHandler innA cache 0 (.netError "socket hang up")).resp.status = 500 ∧
      (verifyInnHandler innA cache 0 (.netError "socket hang up")).resp.body =
        .msgDetails "Внутренняя ошибка сервера." "socket hang up" ∧
      (verifyInnHandler innA (verifyInnHandler innA cache 0
        (.netError "socket hang up")).cache 1000
        (.success (some [sampleCompany]))).upstreamCalls = 1) ∧
     ((verifyInnHandler innA cache 0 (.httpError 403 "Forbidden")).cache = cache ∧
      (verifyInnHandler innA cache 0 (.httpError 403 "Forbidden")).resp.status = 403 ∧
      (verifyInnHandler innA cache 0 (.httpError 403 "Forbidden")).resp.body =
        .msgDetails "Ошибка при проверке ИНН через ФНС. Попробуйте позже." "Forbidden" ∧
      (verifyInnHandler innA (verifyInnHandler innA cache 0
        (.httpError 403 "Forbidden")).cache 1000
        (.success (some [sampleCompany]))).upstreamCalls = 1)) :=
  ⟨by decide, by decide, by decide, by decide,
   C5_transport_failure_not_cached innA cache 0 1000 "socket hang up" 403
     "Forbidden" (.success (some [sampleCompany]))
     (by decide) (by decide) (by decide) (by decide)⟩

/-- C9: a non-string `inn` — here a JSON number whose decimal rendering
has 10 or 12 digits — passes the guards (the regex test coerces its
argument to a string) and the request proceeds to the cache and the
upstream lookup, with the number itself used as the cache key. -/
theorem C9_nonstring_inn_accepted (n : Int) (c : Cache) (now : Nat)
    (sugs : Option (List CompanyData))
    (hfmt : innRegexTest (toString n) = true)
    (hmiss : c.has (.vnum n) now = false) (hcap : 1 ≤ c.maxSize) :
    jsTruthy (.vnum n) = true ∧
    (∀ p : FetchOutcome, verifyInnHandler (.vnum n) c now p =
      verifyInnCore (.vnum n) c now p) ∧
    (verifyInnHandler (.vnum n) c now (.success sugs)).upstreamCalls = 1 ∧
    lookupVal (verifyInnHandler (.vnum n) c now
      (.success sugs)).cache.entries (.vnum n) = some (normalizeResponse sugs) := by
  have hne : n ≠ 0 := by
    intro h0
    rw [h0] at hfmt
    exact absurd hfmt (by decide)
  have hv : jsTruthy (.vnum n) = true := by
    simp [jsTruthy, hne]
  have hfmt2 : innRegexTest (jsToString (.vnum n)) = true := hfmt
  have h1 : verifyInnHandler (.vnum n) c now (.success sugs) =
      ⟨⟨if (firstSuggestion sugs).isSome then 200 else 404,
        .result (normalizeResponse sugs)⟩,
       c.set (.vnum n) (normalizeResponse sugs) now, 1⟩ := by
    rw [handler_valid_eq_core hv hfmt2, core_miss_success hmiss]
  refine ⟨hv, fun p => handler_valid_eq_core hv hfmt2, ?_, ?_⟩
  · rw [h1]
  · rw [h1]
    show lookupVal (c.set (.vnum n) (normalizeResponse sugs) now).entries
      (.vnum n) = some (normalizeResponse sugs)
    unfold lookupVal
    rw [set_find?_self c (.vnum n) (normalizeResponse sugs) now hcap]
    rfl

/-- Witness for C9 with the number 7707083893 as the `inn` value. -/
theorem C9_nonstring_inn_accepted_witness :
    innRegexTest (toString (7707083893 : Int)) = true ∧
    Cache.has cache (.vnum 7707083893) 0 = false ∧ 1 ≤ cache.maxSize ∧
    (jsTruthy (.vnum 7707083893) = true ∧
     (∀ p : FetchOutcome, verifyInnHandler (.vnum 7707083893) cache 0 p =
       verifyInnCore (.vnum 7707083893) cache 0 p) ∧
     (verifyInnHandler (.vnum 7707083893) cache 0
       (.success (some [sampleCompany]))).upstreamCalls = 1 ∧
     lookupVal (verifyInnHandler (.vnum 7707083893) cache 0
       (.success (some [sampleCompany]))).cache.entries (.vnum 7707083893) =
       some (normalizeResponse (some [sampleCompany]))) :=
  ⟨by decide, by decide, by decide,
   C9_nonstring_inn_accepted 7707083893 cache 0 (some [sampleCompany])
     (by decide) (by decide) (by decide)⟩

/-- C10: a verify-inn request for identifier `inn` writes at most the
cache entry of `inn`: every other key that still maps to a value after
the request maps to the value it had before — it can only become
absent, never change value. -/
theorem C10_frame (inn : JsVal) (c : Cache) (now : Nat) (p : FetchOutcome)
    (k2 : JsVal) (v2 : VerificationResult) (hne : k2 ≠ inn)
    (h : lookupVal (verifyInnHandler inn c now p).cache.entries k2 = some v2) :
    lookupVal c.entries k2 = some v2 := by
  by_cases hv : jsTruthy inn = false
  · have he : verifyInnHandler inn c now p =
        ⟨⟨400, .msg "ИНН не предоставлен."⟩, c, 0⟩ := by
      unfold verifyInnHandler
      rw [if_pos hv]
    rw [he] at h
    exact h
  · have hv2 : jsTruthy inn = true := by
      simpa using hv
    by_cases hfmt : innRegexTest (jsToString inn) = false
    · have he : verifyInnHandler inn c now p =
          ⟨⟨400, .msg "Некорректный формат ИНН."⟩, c, 0⟩ := by
        unfold verifyInnHandler
        rw [if_neg hv, if_pos hfmt]
      rw [he] at h
      exact h
    · have hfmt2 : innRegexTest (jsToString inn) = true := by
        simpa using hfmt
      rw [handler_valid_eq_core hv2 hfmt2] at h
      by_cases hhit : c.has inn now = true
      · rcases hg : c.get inn now with ⟨r0, c2⟩
        rcases r0 with _ | r
        · have he : verifyInnCore inn c now p = ⟨⟨200, .empty⟩, c2, 0⟩ := by
            unfold verifyInnCore
            rw [if_pos hhit, hg]
          rw [he] at h
          exact lookupVal_get_frame c inn now hne (by rw [hg]; exact h)
        · have he : verifyInnCore inn c now p = ⟨⟨200, .result r⟩, c2, 0⟩ := by
            unfold verifyInnCore
            rw [if_pos hhit, hg]
          rw [he] at h
          exact lookupVal_get_frame c inn now hne (by rw [hg]; exact h)
      · have hmiss : c.has inn now = false := by
          simpa using hhit
        rcases p with m | ⟨st, txt⟩ | sugs
        · have he : verifyInnCore inn c now (.netError m) =
              ⟨⟨500, .msgDetails "Внутренняя ошибка сервера." m⟩, c, 1⟩ := by
            unfold verifyInnCore
            simp [hmiss]
          rw [he] at h
          exact h
        · have he : verifyInnCore inn c now (.httpError st txt) =
              ⟨⟨st, .msgDetails
                "Ошибка при проверке ИНН через ФНС. Попробуйте позже." txt⟩,
               c, 1⟩ := by
            unfold verifyInnCore
            simp [hmiss]
          rw [he] at h
          exact h
        · rw [@core_miss_success inn c now sugs hmiss] at h
          exact lookupVal_set_frame hne h

/-- Witness for C10: a request for a fresh identifier on a full
capacity-2 cache evicts B but leaves the value of A unchanged. -/
theorem C10_frame_witness :
    JsVal.vstr "A" ≠ innA ∧
    lookupVal (verifyInnHandler innA probeCache2 0
      (.success (some []))).cache.entries (.vstr "A") = some probeResult ∧
    lookupVal probeCache2.entries (.vstr "A") = some probeResult :=
  ⟨by decide, by decide,
   C10_frame innA probeCache2 0 (.success (some [])) (.vstr "A") probeResult
     (by decide) (by decide)⟩

example : innRegexTest "7707083893" = true := by decide
example : innRegexTest " 7707083893" = false := by decide
example : innRegexTest "770708389312" = true := by decide
example : innRegexTest "770708389" = false := by decide
example : jsToString (.vnum 7707083893) = "7707083893" := by decide
